import Mathlib

/-!
ec2_degraded_instances_restarter: the remediation ledger and state machine.

A shallow embedding of `ec2_degraded_instances_restarter.go`.

* The SQLite table `processing_instance` is a list of rows together with the
  AUTOINCREMENT counter. Every SQL statement of the program is a function on
  that state; the wall clock read by `strftime('%s','now')` is an explicit
  argument `now` (epoch seconds).
* The SQL statements are taken to execute successfully: the `log.Fatalf`
  branches that follow a failed `db.Exec` / `db.Query` are not part of the model.
* The EC2 provider is an environment: whether `StopInstances` and
  `StartInstances` return an error, and the sequence of events the `select`
  of `waitForInstanceStop` receives.
* Every function returns the list of ledger and provider calls it performed,
  in program order.
-/

namespace Restarter

/-! ## Constants -/

/-- Line 27: `INSTANCE_NOT_UPDATE_SEC = 30`. -/
def INSTANCE_NOT_UPDATE_SEC : Int := 30

/-- Line 24: `SLEEP_DURATION_MINUTE = 10`. -/
def SLEEP_DURATION_MINUTE : Int := 10

/-- Line 189: the duration `2 * time.Minute` of the timer in the wait loop, in seconds. -/
def HEARTBEAT_SEC : Int := 2 * 60

/-! ## The ledger (table `processing_instance`) -/

/-- One row of `processing_instance` (lines 28-34). `create_time` is the
insertion instant (SQLite stores its textual rendering; the program never
reads it). -/
structure Row where
  id : Nat
  create_time : Int
  instance_id : String
  last_update_time : Int
  deriving DecidableEq, Repr

/-- The database: the rows of the table in rowid order, and the largest rowid
handed out so far (the `sqlite_sequence` entry kept for an AUTOINCREMENT key). -/
structure Db where
  rows : List Row
  seq : Nat
  deriving DecidableEq, Repr

/-- The table right after `createTable` on a fresh file. -/
def Db.empty : Db := ⟨[], 0⟩

/-- The unique key on `instance_id` (line 32): no two rows share an instance id. -/
def Db.UniqueIds (db : Db) : Prop := (db.rows.map Row.instance_id).Nodup

instance (db : Db) : Decidable db.UniqueIds := by
  unfold Db.UniqueIds; infer_instance

/-- The rows of the ledger that belong to `instanceId`. -/
def Db.entriesFor (db : Db) (instanceId : String) : List Row :=
  db.rows.filter (fun r => r.instance_id == instanceId)

/-- Lines 66-78 with the statement of line 38:
`INSERT OR REPLACE INTO processing_instance (instance_id, last_update_time)
 VALUES (?, cast(strftime('%s','now') as INT))`.
REPLACE first deletes every row that conflicts on the unique `instance_id`,
then inserts the new row, which takes a fresh AUTOINCREMENT rowid and the
default `create_time`. -/
def updateInstanceTime (db : Db) (instanceId : String) (now : Int) : Db :=
  let kept := db.rows.filter (fun r => r.instance_id != instanceId)
  ⟨kept ++ [⟨db.seq + 1, now, instanceId, now⟩], db.seq + 1⟩

/-- The rows selected by the statement of line 39:
`SELECT last_update_time FROM processing_instance
 WHERE instance_id=? AND cast(strftime('%s','now') AS INT) - last_update_time > ?`. -/
def queryHandlingInstance (db : Db) (instanceId : String) (threshold now : Int) : List Int :=
  (db.rows.filter (fun r =>
      r.instance_id == instanceId && decide (now - r.last_update_time > threshold))).map
    Row.last_update_time

/-- Lines 80-96: run the query of line 39 with `INSTANCE_NOT_UPDATE_SEC`;
`rows.Next()` is true exactly when the result set is not empty. -/
def isInstanceHandling (db : Db) (instanceId : String) (now : Int) : Bool :=
  match queryHandlingInstance db instanceId INSTANCE_NOT_UPDATE_SEC now with
  | [] => false
  | _ :: _ => true

/-- Lexicographic order on sequences of code points; a proper prefix comes first. -/
def codesLt : List Nat → List Nat → Bool
  | _, [] => false
  | [], _ :: _ => true
  | a :: as, b :: bs => if a < b then true else if b < a then false else codesLt as bs

/-- The order of SQLite's BINARY collation on text: byte-wise comparison of the
UTF-8 encodings, which is the lexicographic order of the code points. -/
def idBefore (a b : String) : Bool :=
  codesLt (a.data.map Char.toNat) (b.data.map Char.toNat)

/-- Insert an instance id at its place in an ascending list of ids. -/
def insertId (a : String) : List String → List String
  | [] => [a]
  | b :: rest => if idBefore a b then a :: b :: rest else b :: insertId a rest

/-- The ids in ascending order, the order of the unique index on `instance_id`. -/
def sortIds : List String → List String
  | [] => []
  | a :: rest => insertId a (sortIds rest)

/-- Lines 98-121 with the statement of line 40: `SELECT instance_id FROM processing_instance`.
The statement has no ORDER BY and reads `instance_id` only, so SQLite answers
it from the index on `instance_id` (line 32, lines 36-37): the ids come in
ascending `instance_id` order, not in rowid order. -/
def getPreviousSessionUnfinishTasks (db : Db) : List String :=
  sortIds (db.rows.map Row.instance_id)

/-- Lines 123-133 with the statement of line 41:
`DELETE FROM processing_instance WHERE instance_id = ?`. -/
def deleteInstance (db : Db) (instanceId : String) : Db :=
  ⟨db.rows.filter (fun r => r.instance_id != instanceId), db.seq⟩

/-- The spec's `isFreshlyClaimed(resourceId, thresholdSeconds)`, written from
the spec's words: an entry exists for the id whose `last_update_time` is within
`thresholdSeconds` of now. -/
def isFreshlyClaimed (db : Db) (resourceId : String) (thresholdSeconds now : Int) : Bool :=
  db.rows.any (fun r =>
    r.instance_id == resourceId && decide (now - r.last_update_time ≤ thresholdSeconds))

/-! ## Calls and provider environment -/

/-- The ledger statements and provider requests the program issues, as they
appear in a run. -/
inductive Call where
  | dbQueryHandling (instanceId : String)
  | dbUpdate (instanceId : String) (now : Int)
  | dbDelete (instanceId : String)
  | stopInstances (instanceId : String)
  | waitUntilInstanceStopped (instanceId : String)
  | startInstances (instanceId : String)
  deriving DecidableEq, Repr

/-- What one pass through the `select` of lines 176-193 receives.
`pollResult err`: a value arrived on `waitStopInstanceChan`; `err = true` is
`err != nil`, `err = false` is the clean "stopped" signal.
`tick now`: the `time.After(2 * time.Minute)` case fired; `now` is the clock
the ledger write of line 192 reads. -/
inductive WaitEvent where
  | pollResult (err : Bool)
  | tick (now : Int)
  deriving DecidableEq, Repr

/-- State of `waitForInstanceStop`: the ledger, the number of long-poll
goroutines launched whose result has not been received yet, the calls made so
far, and whether `break waiting_loop` was reached. -/
structure WaitState where
  db : Db
  outstanding : Nat
  calls : List Call
  exited : Bool
  deriving DecidableEq, Repr

/-- Lines 167-172: the first long-poll goroutine is launched before the loop. -/
def waitStart (db : Db) (instanceId : String) : WaitState :=
  ⟨db, 1, [Call.waitUntilInstanceStopped instanceId], false⟩

/-- Lines 174-194, the labelled `for { select { ... } }`. With no event left
the loop is blocked in `select`, still not exited. -/
def waitLoop (instanceId : String) : WaitState → List WaitEvent → WaitState
  | s, [] => s
  | s, WaitEvent.pollResult false :: _ =>
      -- lines 178-181: err == nil, break waiting_loop
      ⟨s.db, s.outstanding - 1, s.calls, true⟩
  | s, WaitEvent.pollResult true :: rest =>
      -- lines 183-188: launch the long-poll again
      waitLoop instanceId
        ⟨s.db, s.outstanding - 1 + 1, s.calls ++ [Call.waitUntilInstanceStopped instanceId], false⟩
        rest
  | s, WaitEvent.tick now :: rest =>
      -- lines 189-192: heartbeat
      waitLoop instanceId
        ⟨updateInstanceTime s.db instanceId now, s.outstanding,
          s.calls ++ [Call.dbUpdate instanceId now], false⟩
        rest

/-- Lines 164-195. -/
def waitForInstanceStop (db : Db) (instanceId : String) (events : List WaitEvent) : WaitState :=
  waitLoop instanceId (waitStart db instanceId) events

/-- What the world answers during one run of `handleDegradedInstance`. -/
structure ProviderEnv where
  /-- clock read by the query of `isInstanceHandling` -/
  checkTime : Int
  /-- clock read by the `updateInstanceTime` of line 141 -/
  claimTime : Int
  /-- true when `stopErr != nil` at line 148 -/
  stopErr : Bool
  /-- events received by the wait loop -/
  waitEvents : List WaitEvent
  /-- true when `startErr != nil` at line 158 -/
  startErr : Bool
  deriving DecidableEq, Repr

/-- How a run of `handleDegradedInstance` ends. -/
inductive Outcome where
  /-- line 138: `return` because the instance is reported as being handled -/
  | skipped
  /-- line 149: `log.Fatalf`, the process exits -/
  | fatalStop
  /-- the run is still inside the loop of `waitForInstanceStop` -/
  | waiting
  /-- line 159: `log.Fatalf`, the process exits -/
  | fatalStart
  /-- line 161 was executed and the function returned -/
  | done
  deriving DecidableEq, Repr

/-- Result of a run: how it ended, the ledger it left, the calls it made. -/
structure Run where
  outcome : Outcome
  db : Db
  calls : List Call
  deriving DecidableEq, Repr

/-- Lines 135-162. `!forceHandle && isInstanceHandling(instanceId)` short-circuits:
with `forceHandle` the query is not executed. The string behind `instanceId`
is taken not to change during the run. -/
def handleDegradedInstance (db : Db) (instanceId : String) (forceHandle : Bool)
    (env : ProviderEnv) : Run :=
  if !forceHandle && isInstanceHandling db instanceId env.checkTime then
    ⟨Outcome.skipped, db, [Call.dbQueryHandling instanceId]⟩
  else
    let checked := if forceHandle then [] else [Call.dbQueryHandling instanceId]
    let db1 := updateInstanceTime db instanceId env.claimTime
    let calls1 := checked ++ [Call.dbUpdate instanceId env.claimTime, Call.stopInstances instanceId]
    if env.stopErr then
      ⟨Outcome.fatalStop, db1, calls1⟩
    else
      let w := waitForInstanceStop db1 instanceId env.waitEvents
      if !w.exited then
        ⟨Outcome.waiting, w.db, calls1 ++ w.calls⟩
      else
        let calls2 := calls1 ++ w.calls ++ [Call.startInstances instanceId]
        if env.startErr then
          ⟨Outcome.fatalStart, w.db, calls2⟩
        else
          ⟨Outcome.done, deleteInstance w.db instanceId, calls2 ++ [Call.dbDelete instanceId]⟩

/-- The loop of lines 224-227: every instance of the scan result is handled by
a plain (synchronous) call with `forceHandle = false`; the next iteration starts
when the call has returned. A call that ends in `log.Fatalf` or that never
leaves its wait loop ends the loop there. -/
def handleScanResult (db : Db) : List (String × ProviderEnv) → Run
  | [] => ⟨Outcome.done, db, []⟩
  | (instanceId, env) :: rest =>
      let r := handleDegradedInstance db instanceId false env
      match r.outcome with
      | Outcome.skipped | Outcome.done =>
          let r2 := handleScanResult r.db rest
          ⟨r2.outcome, r2.db, r.calls ++ r2.calls⟩
      | _ => r

/-- Lines 218-229. The argument is the answer of `DescribeInstanceStatus`:
`none` for an error (the function panics, no run), otherwise the instance ids
of `InstanceStatuses`, each with what the provider answers while it is handled. -/
def checkDegradedResult (db : Db) : Option (List (String × ProviderEnv)) → Option Run
  | none => none
  | some statuses => some (handleScanResult db statuses)

/-! ## The wait loop with its timer -/

/-- The event sequence the loop of lines 174-194 sees, with time made explicit.
`enter` is the instant the `select` is entered; `polls` lists, for the
successive long-polls, the instant each result is sent on the channel and
whether it is an error. `time.After(2 * time.Minute)` is evaluated anew each
time the `select` is entered, so the timer fires `HEARTBEAT_SEC` after `enter`.
A result that is available no later than that is received; otherwise the timer
case runs and the `select` is entered again at the firing instant. Handling an
event takes no time. `fuel` bounds the number of passes observed. -/
def selectLoop : Nat → Int → List (Int × Bool) → List WaitEvent
  | 0, _, _ => []
  | fuel + 1, enter, [] =>
      WaitEvent.tick (enter + HEARTBEAT_SEC) :: selectLoop fuel (enter + HEARTBEAT_SEC) []
  | fuel + 1, enter, (arrival, err) :: rest =>
      if arrival ≤ enter + HEARTBEAT_SEC then
        WaitEvent.pollResult err ::
          (if err then selectLoop fuel (max enter arrival) rest else [])
      else
        WaitEvent.tick (enter + HEARTBEAT_SEC) ::
          selectLoop fuel (enter + HEARTBEAT_SEC) ((arrival, err) :: rest)

/-! ## Startup: the recovery sweep -/

/-- A step of the startup loop of lines 248-250 or of one of the goroutines it
launched. `iterate`: `main` runs the next iteration, which declares the range
variable `instanceId` of that iteration, holding the next id, and executes
`go handleDegradedInstance(&instanceId, ec2Service, true)`.
`deref k`: the goroutine launched by iteration `k` reads `*instanceId`. -/
inductive SweepStep where
  | iterate
  | deref (k : Nat)
  deriving DecidableEq, Repr

/-- State of the startup loop: the ids still to iterate over, the range
variables `instanceId` of the iterations run so far (goroutine `k` holds the
address of the `k`-th one), and what the goroutines have read so far: goroutine
number, the id it found behind its pointer, its `forceHandle` argument. -/
structure SweepState where
  pending : List String
  vars : List String
  handled : List (Nat × String × Bool)
  deriving DecidableEq, Repr

/-- One step of the startup loop and its goroutines. Each iteration of the
`range` loop has its own variable `instanceId` (the loop-variable rule of Go
1.22 and later, the language version at which a current toolchain compiles this
package, which sits in no module and carries no build line): the variable is
written once, when its iteration starts, and the goroutine of that iteration is
the only holder of its address. -/
def sweepStep (s : SweepState) : SweepStep → SweepState
  | SweepStep.iterate =>
      match s.pending with
      | [] => s
      | next :: rest => ⟨rest, s.vars ++ [next], s.handled⟩
  | SweepStep.deref k =>
      match s.vars[k]? with
      | some current => ⟨s.pending, s.vars, s.handled ++ [(k, current, true)]⟩
      | none => s

/-- Lines 248-250 under a schedule of loop iterations and goroutine reads. -/
def recoverySweep (tasks : List String) (schedule : List SweepStep) : SweepState :=
  schedule.foldl sweepStep ⟨tasks, [], []⟩

/-- Lines 243-250 on a ledger: the ids come from `getPreviousSessionUnfinishTasks`. -/
def startupSweep (db : Db) (schedule : List SweepStep) : SweepState :=
  recoverySweep (getPreviousSessionUnfinishTasks db) schedule

/-! ## Definitions used to state the properties -/

/-- The ledger after a sequence of claims of one id at the given times. -/
def claimAll (db : Db) (instanceId : String) (times : List Int) : Db :=
  times.foldl (fun d t => updateInstanceTime d instanceId t) db

/-- The calls the wait loop makes for a sequence of events that holds no clean
success: one new long-poll per error, one ledger write per tick. -/
def waitCalls (instanceId : String) : List WaitEvent → List Call
  | [] => []
  | WaitEvent.pollResult true :: rest =>
      Call.waitUntilInstanceStopped instanceId :: waitCalls instanceId rest
  | WaitEvent.pollResult false :: rest => waitCalls instanceId rest
  | WaitEvent.tick now :: rest => Call.dbUpdate instanceId now :: waitCalls instanceId rest

/-- The ledger after the heartbeats of a sequence of events. -/
def heartbeats (instanceId : String) : Db → List WaitEvent → Db
  | db, [] => db
  | db, WaitEvent.pollResult _ :: rest => heartbeats instanceId db rest
  | db, WaitEvent.tick now :: rest =>
      heartbeats instanceId (updateInstanceTime db instanceId now) rest

/-- Every long-poll result arrives within `HEARTBEAT_SEC` of the instant the
`select` was entered for it. -/
def closelySpaced : Int → List (Int × Bool) → Bool
  | _, [] => true
  | enter, (arrival, _) :: rest =>
      decide (arrival ≤ enter + HEARTBEAT_SEC) && closelySpaced (max enter arrival) rest

/-! ## Ledger lemmas -/

theorem entriesFor_updateInstanceTime (db : Db) (instanceId : String) (now : Int) :
    (updateInstanceTime db instanceId now).entriesFor instanceId
      = [⟨db.seq + 1, now, instanceId, now⟩] := by
  simp [updateInstanceTime, Db.entriesFor, List.filter_append, List.filter_filter]

theorem entriesFor_deleteInstance (db : Db) (instanceId : String) :
    (deleteInstance db instanceId).entriesFor instanceId = [] := by
  simp [deleteInstance, Db.entriesFor, List.filter_filter]

theorem uniqueIds_updateInstanceTime (db : Db) (instanceId : String) (now : Int)
    (h : db.UniqueIds) : (updateInstanceTime db instanceId now).UniqueIds := by
  unfold Db.UniqueIds at *
  simp only [updateInstanceTime, List.map_append, List.map_cons, List.map_nil]
  rw [List.nodup_append]
  refine ⟨(h.sublist ((List.filter_sublist _).map _)), by simp, ?_⟩
  intro a ha hb
  simp only [List.mem_singleton] at hb
  subst hb
  simp only [List.mem_map, List.mem_filter] at ha
  obtain ⟨r, ⟨_, hr⟩, rfl⟩ := ha
  simp at hr

theorem isInstanceHandling_eq_true_iff (db : Db) (instanceId : String) (now : Int) :
    isInstanceHandling db instanceId now = true ↔
      ∃ r ∈ db.rows, r.instance_id = instanceId ∧
        now - r.last_update_time > INSTANCE_NOT_UPDATE_SEC := by
  unfold isInstanceHandling queryHandlingInstance
  constructor
  · intro h
    split at h
    · exact absurd h (by simp)
    · rename_i x xs hq
      have hx : x ∈ (db.rows.filter (fun r => r.instance_id == instanceId &&
          decide (now - r.last_update_time > INSTANCE_NOT_UPDATE_SEC))).map
            Row.last_update_time := by rw [hq]; simp
      simp only [List.mem_map, List.mem_filter, Bool.and_eq_true, beq_iff_eq,
        decide_eq_true_eq] at hx
      obtain ⟨r, ⟨hr, hid, hage⟩, _⟩ := hx
      exact ⟨r, hr, hid, hage⟩
  · rintro ⟨r, hr, hid, hage⟩
    have hx : r.last_update_time ∈ (db.rows.filter (fun r => r.instance_id == instanceId &&
        decide (now - r.last_update_time > INSTANCE_NOT_UPDATE_SEC))).map
          Row.last_update_time := by
      simp only [List.mem_map, List.mem_filter, Bool.and_eq_true, beq_iff_eq,
        decide_eq_true_eq]
      exact ⟨r, ⟨hr, hid, hage⟩, rfl⟩
    split
    · rename_i hq
      rw [hq] at hx
      simp at hx
    · rfl

theorem isInstanceHandling_empty (instanceId : String) (now : Int) :
    isInstanceHandling Db.empty instanceId now = false := by
  cases h : isInstanceHandling Db.empty instanceId now
  · rfl
  · obtain ⟨r, hr, _⟩ := (isInstanceHandling_eq_true_iff _ _ _).mp h
    simp [Db.empty] at hr

/-- The code's check right after a claim: the only entry of the id has age 0,
which is not larger than 30, so the check answers false. -/
theorem isInstanceHandling_after_claim (db : Db) (instanceId : String) (now : Int) :
    isInstanceHandling (updateInstanceTime db instanceId now) instanceId now = false := by
  cases h : isInstanceHandling (updateInstanceTime db instanceId now) instanceId now
  · rfl
  · obtain ⟨r, hr, hid, hage⟩ := (isInstanceHandling_eq_true_iff _ _ _).mp h
    have hmem : r ∈ (updateInstanceTime db instanceId now).entriesFor instanceId := by
      simp only [Db.entriesFor, List.mem_filter, beq_iff_eq]
      exact ⟨hr, hid⟩
    rw [entriesFor_updateInstanceTime] at hmem
    simp only [List.mem_singleton] at hmem
    subst hmem
    simp [INSTANCE_NOT_UPDATE_SEC] at hage

theorem uniqueIds_claimAll (instanceId : String) (times : List Int) :
    ∀ db : Db, db.UniqueIds → (claimAll db instanceId times).UniqueIds := by
  induction times with
  | nil => intro db h; exact h
  | cons t ts ih =>
    intro db h
    exact ih _ (uniqueIds_updateInstanceTime db instanceId t h)

/-! ## Claims -/

/-- C1 (code bug). The claim: the freshness check is true iff the ledger holds
an entry of the id with `now - last_update_time <= 30`, so true right after a
claim and false for an entry older than 30 seconds. The code's query selects
`now - last_update_time > 30`: right after a claim of `i-001` at time 1000 the
check is false where the spec's check is true, and 3600 seconds later it is
true where the spec's check is false. -/
theorem isInstanceHandling_inverted :
    isInstanceHandling (updateInstanceTime Db.empty "i-001" 1000) "i-001" 1000 = false ∧
    isFreshlyClaimed (updateInstanceTime Db.empty "i-001" 1000) "i-001"
      INSTANCE_NOT_UPDATE_SEC 1000 = true ∧
    isInstanceHandling (updateInstanceTime Db.empty "i-001" 1000) "i-001" 4600 = true ∧
    isFreshlyClaimed (updateInstanceTime Db.empty "i-001" 1000) "i-001"
      INSTANCE_NOT_UPDATE_SEC 4600 = false := by
  decide

/-- C2 (code bug). The claim: `handleDegradedInstance(id, false)` returns
without any write or provider request when the entry of the id was refreshed
within the last 30 seconds, and proceeds otherwise. On the code, with an entry
of `i-001` refreshed 5 seconds ago the run claims again and issues the stop
request, and with an entry aged 3600 seconds it returns at once, the ledger
untouched. -/
theorem handleDegradedInstance_skip_inverted :
    (handleDegradedInstance (updateInstanceTime Db.empty "i-001" 1000) "i-001" false
        ⟨1005, 1005, false, [], false⟩).calls
      = [Call.dbQueryHandling "i-001", Call.dbUpdate "i-001" 1005,
          Call.stopInstances "i-001", Call.waitUntilInstanceStopped "i-001"] ∧
    handleDegradedInstance (updateInstanceTime Db.empty "i-001" 1000) "i-001" false
        ⟨4600, 4600, false, [WaitEvent.pollResult false], false⟩
      = ⟨Outcome.skipped, updateInstanceTime Db.empty "i-001" 1000,
          [Call.dbQueryHandling "i-001"]⟩ := by
  decide

/-- C3. After any non-empty sequence of `updateInstanceTime` calls on one id,
the ledger holds exactly one entry of that id and its `last_update_time` is the
time of the last call; and a ledger with at most one entry per id keeps that
property through the claims, and through a claim of any id. -/
theorem updateInstanceTime_exactly_one_entry (db : Db) (instanceId : String)
    (times : List Int) (hne : times ≠ []) (huniq : db.UniqueIds) :
    ((claimAll db instanceId times).entriesFor instanceId).map Row.last_update_time
        = [times.getLast hne] ∧
      ((claimAll db instanceId times).entriesFor instanceId).length = 1 ∧
      (claimAll db instanceId times).UniqueIds ∧
      (∀ (other : String) (t : Int), (updateInstanceTime db other t).UniqueIds) := by
  refine ⟨?_, ?_, uniqueIds_claimAll instanceId times db huniq,
    fun other t => uniqueIds_updateInstanceTime db other t huniq⟩
  · rcases List.eq_nil_or_concat times with h | ⟨init, last, h⟩
    · exact absurd h hne
    · subst h
      simp [claimAll, List.foldl_append, entriesFor_updateInstanceTime]
  · rcases List.eq_nil_or_concat times with h | ⟨init, last, h⟩
    · exact absurd h hne
    · subst h
      simp [claimAll, List.foldl_append, entriesFor_updateInstanceTime]

theorem updateInstanceTime_exactly_one_entry_witness :
    (((claimAll (updateInstanceTime (updateInstanceTime Db.empty "i-002" 10) "i-001" 20)
        "i-001" [30, 50, 40]).entriesFor "i-001").map Row.last_update_time = [40]) ∧
      ((claimAll (updateInstanceTime (updateInstanceTime Db.empty "i-002" 10) "i-001" 20)
        "i-001" [30, 50, 40]).entriesFor "i-001").length = 1 ∧
      (claimAll (updateInstanceTime (updateInstanceTime Db.empty "i-002" 10) "i-001" 20)
        "i-001" [30, 50, 40]).UniqueIds :=
  have h := updateInstanceTime_exactly_one_entry
    (updateInstanceTime (updateInstanceTime Db.empty "i-002" 10) "i-001" 20) "i-001"
    [30, 50, 40] (by decide) (by decide)
  ⟨h.1, h.2.1, h.2.2.1⟩

theorem waitLoop_before_success (instanceId : String) (pre : List WaitEvent)
    (hpre : WaitEvent.pollResult false ∉ pre) :
    ∀ s : WaitState, s.outstanding = 1 → s.exited = false →
      waitLoop instanceId s pre
        = ⟨heartbeats instanceId s.db pre, 1, s.calls ++ waitCalls instanceId pre, false⟩ := by
  induction pre with
  | nil =>
    intro s h1 h2
    cases s
    simp_all [waitLoop, heartbeats, waitCalls]
  | cons ev rest ih =>
    intro s h1 h2
    have hrest : WaitEvent.pollResult false ∉ rest := fun h => hpre (List.mem_cons_of_mem _ h)
    cases ev with
    | pollResult err =>
      cases err with
      | false => exact absurd (List.mem_cons_self _ _) hpre
      | true =>
        rw [waitLoop, ih hrest _ (by simp [h1]) rfl]
        simp [heartbeats, waitCalls]
    | tick now =>
      rw [waitLoop, ih hrest _ (by simp [h1]) rfl]
      simp [heartbeats, waitCalls]

theorem waitLoop_at_success (instanceId : String) (pre post : List WaitEvent)
    (hpre : WaitEvent.pollResult false ∉ pre) :
    ∀ s : WaitState, s.outstanding = 1 → s.exited = false →
      waitLoop instanceId s (pre ++ WaitEvent.pollResult false :: post)
        = ⟨heartbeats instanceId s.db pre, 0, s.calls ++ waitCalls instanceId pre, true⟩ := by
  induction pre with
  | nil =>
    intro s h1 h2
    simp [waitLoop, heartbeats, waitCalls, h1]
  | cons ev rest ih =>
    intro s h1 h2
    have hrest : WaitEvent.pollResult false ∉ rest := fun h => hpre (List.mem_cons_of_mem _ h)
    cases ev with
    | pollResult err =>
      cases err with
      | false => exact absurd (List.mem_cons_self _ _) hpre
      | true =>
        rw [List.cons_append, waitLoop, ih hrest _ (by simp [h1]) rfl]
        simp [heartbeats, waitCalls]
    | tick now =>
      rw [List.cons_append, waitLoop, ih hrest _ (by simp [h1]) rfl]
      simp [heartbeats, waitCalls]

theorem waitForInstanceStop_before_success (db : Db) (instanceId : String)
    (pre : List WaitEvent) (hpre : WaitEvent.pollResult false ∉ pre) :
    waitForInstanceStop db instanceId pre
      = ⟨heartbeats instanceId db pre, 1,
          Call.waitUntilInstanceStopped instanceId :: waitCalls instanceId pre, false⟩ := by
  unfold waitForInstanceStop
  rw [waitLoop_before_success instanceId pre hpre _ rfl rfl]
  simp [waitStart]

theorem waitForInstanceStop_at_success (db : Db) (instanceId : String)
    (pre post : List WaitEvent) (hpre : WaitEvent.pollResult false ∉ pre) :
    waitForInstanceStop db instanceId (pre ++ WaitEvent.pollResult false :: post)
      = ⟨heartbeats instanceId db pre, 0,
          Call.waitUntilInstanceStopped instanceId :: waitCalls instanceId pre, true⟩ := by
  unfold waitForInstanceStop
  rw [waitLoop_at_success instanceId pre post hpre _ rfl rfl]
  simp [waitStart]

theorem waitCalls_append (instanceId : String) (pre post : List WaitEvent) :
    waitCalls instanceId (pre ++ post) = waitCalls instanceId pre ++ waitCalls instanceId post := by
  induction pre with
  | nil => rfl
  | cons ev rest ih =>
    cases ev with
    | pollResult err => cases err <;> simp [waitCalls, ih]
    | tick now => simp [waitCalls, ih]

theorem heartbeats_append (instanceId : String) (pre post : List WaitEvent) :
    ∀ db : Db, heartbeats instanceId db (pre ++ post)
      = heartbeats instanceId (heartbeats instanceId db pre) post := by
  induction pre with
  | nil => intro db; rfl
  | cons ev rest ih =>
    intro db
    cases ev with
    | pollResult err => simp [heartbeats, ih]
    | tick now => simp [heartbeats, ih]

/-- Every finite event sequence is either free of a clean success or splits at
its first clean success. -/
theorem split_at_first_success (events : List WaitEvent) :
    WaitEvent.pollResult false ∉ events ∨
      ∃ pre post, events = pre ++ WaitEvent.pollResult false :: post ∧
        WaitEvent.pollResult false ∉ pre := by
  induction events with
  | nil => left; simp
  | cons ev rest ih =>
    by_cases hev : ev = WaitEvent.pollResult false
    · right; exact ⟨[], rest, by simp [hev], by simp⟩
    · rcases ih with h | ⟨pre, post, h, hpre⟩
      · left
        intro hmem
        rcases List.mem_cons.mp hmem with h1 | h1
        · exact hev h1.symm
        · exact h h1
      · right
        refine ⟨ev :: pre, post, by simp [h], ?_⟩
        intro hmem
        rcases List.mem_cons.mp hmem with h1 | h1
        · exact hev h1.symm
        · exact hpre h1

/-- C10. For every sequence `pre` of errors and ticks (no clean success) then
delivered to the wait loop: the loop has not exited and exactly one long-poll is
outstanding; a further error starts exactly one new long-poll and writes
nothing to the ledger; a further tick makes exactly one `updateInstanceTime`
call and leaves the long-poll outstanding; a clean success exits the loop, with
no call, whatever events would follow. -/
theorem waitForInstanceStop_event_loop (db : Db) (instanceId : String)
    (pre : List WaitEvent) (hpre : WaitEvent.pollResult false ∉ pre) :
    (waitForInstanceStop db instanceId pre).exited = false ∧
    (waitForInstanceStop db instanceId pre).outstanding = 1 ∧
    waitForInstanceStop db instanceId (pre ++ [WaitEvent.pollResult true])
      = ⟨(waitForInstanceStop db instanceId pre).db, 1,
          (waitForInstanceStop db instanceId pre).calls
            ++ [Call.waitUntilInstanceStopped instanceId], false⟩ ∧
    (∀ now : Int, waitForInstanceStop db instanceId (pre ++ [WaitEvent.tick now])
      = ⟨updateInstanceTime (waitForInstanceStop db instanceId pre).db instanceId now, 1,
          (waitForInstanceStop db instanceId pre).calls ++ [Call.dbUpdate instanceId now],
          false⟩) ∧
    (∀ post : List WaitEvent,
      waitForInstanceStop db instanceId (pre ++ WaitEvent.pollResult false :: post)
        = ⟨(waitForInstanceStop db instanceId pre).db, 0,
            (waitForInstanceStop db instanceId pre).calls, true⟩) := by
  have h0 := waitForInstanceStop_before_success db instanceId pre hpre
  refine ⟨by rw [h0], by rw [h0], ?_, ?_, ?_⟩
  · have h1 : WaitEvent.pollResult false ∉ pre ++ [WaitEvent.pollResult true] := by
      simp [hpre]
    rw [waitForInstanceStop_before_success db instanceId _ h1, h0]
    simp [waitCalls_append, heartbeats_append, waitCalls, heartbeats]
  · intro now
    have h1 : WaitEvent.pollResult false ∉ pre ++ [WaitEvent.tick now] := by
      simp [hpre]
    rw [waitForInstanceStop_before_success db instanceId _ h1, h0]
    simp [waitCalls_append, heartbeats_append, waitCalls, heartbeats]
  · intro post
    rw [waitForInstanceStop_at_success db instanceId pre post hpre, h0]

theorem waitForInstanceStop_event_loop_witness :
    (waitForInstanceStop Db.empty "i-001"
        [WaitEvent.tick 1120, WaitEvent.pollResult true, WaitEvent.tick 1240]).exited = false ∧
    (waitForInstanceStop Db.empty "i-001"
        [WaitEvent.tick 1120, WaitEvent.pollResult true, WaitEvent.tick 1240]).outstanding = 1 ∧
    (waitForInstanceStop Db.empty "i-001"
        ([WaitEvent.tick 1120, WaitEvent.pollResult true, WaitEvent.tick 1240]
          ++ WaitEvent.pollResult false :: [WaitEvent.tick 1360])).exited = true :=
  have h := waitForInstanceStop_event_loop Db.empty "i-001"
    [WaitEvent.tick 1120, WaitEvent.pollResult true, WaitEvent.tick 1240] (by decide)
  ⟨h.1, h.2.1, by rw [h.2.2.2.2 [WaitEvent.tick 1360]]⟩

theorem heartbeats_entriesFor_length (instanceId : String) (events : List WaitEvent) :
    ∀ db : Db, (db.entriesFor instanceId).length = 1 →
      ((heartbeats instanceId db events).entriesFor instanceId).length = 1 := by
  induction events with
  | nil => intro db h; exact h
  | cons ev rest ih =>
    intro db h
    cases ev with
    | pollResult err => exact ih db h
    | tick now =>
      exact ih _ (by rw [entriesFor_updateInstanceTime]; rfl)

theorem heartbeats_only_id (instanceId : String) (events : List WaitEvent) :
    ∀ db : Db, (∀ r ∈ db.rows, r.instance_id = instanceId) →
      ∀ r ∈ (heartbeats instanceId db events).rows, r.instance_id = instanceId := by
  induction events with
  | nil => intro db h; exact h
  | cons ev rest ih =>
    intro db h
    cases ev with
    | pollResult err => exact ih db h
    | tick now =>
      apply ih
      intro r hr
      simp only [updateInstanceTime, List.mem_append, List.mem_filter, List.mem_singleton] at hr
      rcases hr with ⟨hr, _⟩ | hr
      · exact h r hr
      · subst hr; rfl

theorem waitCalls_no_delete (instanceId : String) (events : List WaitEvent) (i : String) :
    Call.dbDelete i ∉ waitCalls instanceId events := by
  induction events with
  | nil => simp [waitCalls]
  | cons ev rest ih =>
    cases ev with
    | pollResult err => cases err <;> simp [waitCalls, ih]
    | tick now => simp [waitCalls, ih]

/-- C4. When the run does not skip (forced, or the check answers false, as it
does on an empty ledger), the stop request succeeds, the wait loop receives a
clean success after any errors and ticks, and the start request succeeds, then
the run ends normally, its calls are claim, stop, wait (the long-poll with its
retries and heartbeats), start, remove in that order, the final ledger has no
entry of the id, and an initially empty ledger is empty again. -/
theorem handleDegradedInstance_full_cycle (db : Db) (instanceId : String)
    (forceHandle : Bool) (env : ProviderEnv) (pre post : List WaitEvent)
    (hrun : forceHandle = true ∨ isInstanceHandling db instanceId env.checkTime = false)
    (hstop : env.stopErr = false) (hstart : env.startErr = false)
    (hwait : env.waitEvents = pre ++ WaitEvent.pollResult false :: post)
    (hpre : WaitEvent.pollResult false ∉ pre) :
    (handleDegradedInstance db instanceId forceHandle env).outcome = Outcome.done ∧
    (handleDegradedInstance db instanceId forceHandle env).calls
      = (if forceHandle then [] else [Call.dbQueryHandling instanceId])
          ++ [Call.dbUpdate instanceId env.claimTime, Call.stopInstances instanceId,
              Call.waitUntilInstanceStopped instanceId]
          ++ waitCalls instanceId pre
          ++ [Call.startInstances instanceId, Call.dbDelete instanceId] ∧
    (handleDegradedInstance db instanceId forceHandle env).db.entriesFor instanceId = [] ∧
    (db.rows = [] → (handleDegradedInstance db instanceId forceHandle env).db.rows = []) := by
  have hcond : (!forceHandle && isInstanceHandling db instanceId env.checkTime) = false := by
    rcases hrun with h | h <;> simp [h]
  have hw := waitForInstanceStop_at_success
    (updateInstanceTime db instanceId env.claimTime) instanceId pre post hpre
  unfold handleDegradedInstance
  simp only [hcond, hstop, hstart, hwait, hw]
  refine ⟨by simp, by simp, by simp [entriesFor_deleteInstance], ?_⟩
  intro hempty
  have honly := heartbeats_only_id instanceId pre
    (updateInstanceTime db instanceId env.claimTime) (by
      intro r hr
      simp [updateInstanceTime, hempty] at hr
      subst hr; rfl)
  simp only [Bool.false_eq_true, if_false, Bool.not_true, deleteInstance]
  rw [List.filter_eq_nil_iff]
  intro r hr
  simp [honly r hr]

theorem handleDegradedInstance_full_cycle_witness :
    (handleDegradedInstance Db.empty "i-001" false
        ⟨1000, 1000, false, [WaitEvent.tick 1120, WaitEvent.pollResult false], false⟩).outcome
      = Outcome.done ∧
    (handleDegradedInstance Db.empty "i-001" false
        ⟨1000, 1000, false, [WaitEvent.tick 1120, WaitEvent.pollResult false], false⟩).calls
      = [Call.dbQueryHandling "i-001", Call.dbUpdate "i-001" 1000, Call.stopInstances "i-001",
          Call.waitUntilInstanceStopped "i-001", Call.dbUpdate "i-001" 1120,
          Call.startInstances "i-001", Call.dbDelete "i-001"] ∧
    (handleDegradedInstance Db.empty "i-001" false
        ⟨1000, 1000, false, [WaitEvent.tick 1120, WaitEvent.pollResult false], false⟩).db.rows
      = [] :=
  have h := handleDegradedInstance_full_cycle Db.empty "i-001" false
    ⟨1000, 1000, false, [WaitEvent.tick 1120, WaitEvent.pollResult false], false⟩
    [WaitEvent.tick 1120] [] (Or.inr (by decide)) rfl rfl rfl (by decide)
  ⟨h.1, h.2.1, h.2.2.2 rfl⟩

theorem waitForInstanceStop_cases (db : Db) (instanceId : String) (events : List WaitEvent) :
    (WaitEvent.pollResult false ∉ events ∧
      waitForInstanceStop db instanceId events
        = ⟨heartbeats instanceId db events, 1,
            Call.waitUntilInstanceStopped instanceId :: waitCalls instanceId events, false⟩) ∨
    (∃ pre, WaitEvent.pollResult false ∈ events ∧
      waitForInstanceStop db instanceId events
        = ⟨heartbeats instanceId db pre, 0,
            Call.waitUntilInstanceStopped instanceId :: waitCalls instanceId pre, true⟩) := by
  rcases split_at_first_success events with h | ⟨pre, post, h, hpre⟩
  · left
    exact ⟨h, waitForInstanceStop_before_success db instanceId events h⟩
  · right
    refine ⟨pre, by simp [h], ?_⟩
    rw [h]
    exact waitForInstanceStop_at_success db instanceId pre post hpre

/-- C5. In every run of `handleDegradedInstance`: a remove call appears only in
a run whose stop and start requests both succeeded, as the last call, right
after the start request, and nowhere before; and when the run is not skipped
and the stop request fails, or the wait completes and the start request fails,
the run aborts with exactly one entry of the id in the ledger and no remove
call. -/
theorem deleteInstance_only_after_start (db : Db) (instanceId : String)
    (forceHandle : Bool) (env : ProviderEnv) :
    ((∃ i, Call.dbDelete i ∈ (handleDegradedInstance db instanceId forceHandle env).calls) →
      (handleDegradedInstance db instanceId forceHandle env).outcome = Outcome.done ∧
      env.stopErr = false ∧ env.startErr = false ∧
      ∃ before, (handleDegradedInstance db instanceId forceHandle env).calls
          = before ++ [Call.startInstances instanceId, Call.dbDelete instanceId] ∧
        ∀ i, Call.dbDelete i ∉ before) ∧
    ((forceHandle = true ∨ isInstanceHandling db instanceId env.checkTime = false) →
      env.stopErr = true →
      (handleDegradedInstance db instanceId forceHandle env).outcome = Outcome.fatalStop ∧
      (handleDegradedInstance db instanceId forceHandle env).db.entriesFor instanceId
        = [⟨db.seq + 1, env.claimTime, instanceId, env.claimTime⟩] ∧
      ∀ i, Call.dbDelete i ∉ (handleDegradedInstance db instanceId forceHandle env).calls) ∧
    ((forceHandle = true ∨ isInstanceHandling db instanceId env.checkTime = false) →
      env.stopErr = false → WaitEvent.pollResult false ∈ env.waitEvents →
      env.startErr = true →
      (handleDegradedInstance db instanceId forceHandle env).outcome = Outcome.fatalStart ∧
      ((handleDegradedInstance db instanceId forceHandle env).db.entriesFor instanceId).length
        = 1 ∧
      ∀ i, Call.dbDelete i ∉ (handleDegradedInstance db instanceId forceHandle env).calls) := by
  refine ⟨?_, ?_, ?_⟩
  · rintro ⟨i, hi⟩
    unfold handleDegradedInstance at hi ⊢
    by_cases hcond : (!forceHandle && isInstanceHandling db instanceId env.checkTime) = true
    · simp [hcond] at hi
    · simp only [hcond] at hi ⊢
      by_cases hstop : env.stopErr = true
      · simp only [hstop, if_true] at hi
        cases forceHandle <;> simp at hi
      · have hstop2 : env.stopErr = false := by simpa using hstop
        rcases waitForInstanceStop_cases (updateInstanceTime db instanceId env.claimTime)
            instanceId env.waitEvents with ⟨_, hw⟩ | ⟨pre, _, hw⟩
        · simp only [hstop2, hw] at hi
          have := waitCalls_no_delete instanceId env.waitEvents i
          cases forceHandle <;> simp [this] at hi
        · by_cases hstart : env.startErr = true
          · simp only [hstop2, hw, hstart] at hi
            have := waitCalls_no_delete instanceId pre i
            cases forceHandle <;> simp [this] at hi
          · have hstart2 : env.startErr = false := by simpa using hstart
            simp only [hstop2, hw, hstart2]
            refine ⟨by simp, trivial, trivial, ?_⟩
            refine ⟨(if forceHandle then [] else [Call.dbQueryHandling instanceId])
              ++ [Call.dbUpdate instanceId env.claimTime, Call.stopInstances instanceId,
                  Call.waitUntilInstanceStopped instanceId] ++ waitCalls instanceId pre,
              by simp, ?_⟩
            intro j
            have := waitCalls_no_delete instanceId pre j
            cases forceHandle <;> simp [this]
  · intro hrun hstop
    have hcond : (!forceHandle && isInstanceHandling db instanceId env.checkTime) = false := by
      rcases hrun with h | h <;> simp [h]
    unfold handleDegradedInstance
    simp only [hcond, hstop]
    refine ⟨by simp, by simp [entriesFor_updateInstanceTime], ?_⟩
    intro i
    cases forceHandle <;> simp
  · intro hrun hstop hwait hstart
    have hcond : (!forceHandle && isInstanceHandling db instanceId env.checkTime) = false := by
      rcases hrun with h | h <;> simp [h]
    rcases waitForInstanceStop_cases (updateInstanceTime db instanceId env.claimTime)
        instanceId env.waitEvents with ⟨hno, _⟩ | ⟨pre, _, hw⟩
    · exact absurd hwait hno
    · unfold handleDegradedInstance
      simp only [hcond, hstop, hstart, hw]
      refine ⟨by simp, ?_, ?_⟩
      · simp only [Bool.false_eq_true, if_false, Bool.not_true, if_true]
        exact heartbeats_entriesFor_length instanceId pre _
          (by rw [entriesFor_updateInstanceTime]; rfl)
      · intro i
        have := waitCalls_no_delete instanceId pre i
        cases forceHandle <;> simp [this]

theorem deleteInstance_only_after_start_witness :
    ((handleDegradedInstance Db.empty "i-001" false
        ⟨1000, 1000, true, [], false⟩).outcome = Outcome.fatalStop ∧
      (handleDegradedInstance Db.empty "i-001" false
        ⟨1000, 1000, true, [], false⟩).db.entriesFor "i-001" = [⟨1, 1000, "i-001", 1000⟩]) ∧
    ((handleDegradedInstance Db.empty "i-001" true
        ⟨1000, 1000, false, [WaitEvent.tick 1120, WaitEvent.pollResult false], true⟩).outcome
        = Outcome.fatalStart ∧
      ((handleDegradedInstance Db.empty "i-001" true
        ⟨1000, 1000, false, [WaitEvent.tick 1120, WaitEvent.pollResult false], true⟩).db.entriesFor
          "i-001").length = 1) :=
  have h1 := (deleteInstance_only_after_start Db.empty "i-001" false
    ⟨1000, 1000, true, [], false⟩).2.1 (Or.inr (by decide)) rfl
  have h2 := (deleteInstance_only_after_start Db.empty "i-001" true
    ⟨1000, 1000, false, [WaitEvent.tick 1120, WaitEvent.pollResult false], true⟩).2.2
    (Or.inl rfl) rfl (by decide) rfl
  ⟨⟨h1.1, h1.2.1⟩, ⟨h2.1, h2.2.1⟩⟩

/-- With two entries, whatever the moment the goroutines read their argument,
each finds the id of its own iteration. -/
theorem startupSweep_two_entries :
    getPreviousSessionUnfinishTasks
        (updateInstanceTime (updateInstanceTime Db.empty "i-002" 1000) "i-001" 1001)
      = ["i-001", "i-002"] ∧
    (startupSweep (updateInstanceTime (updateInstanceTime Db.empty "i-002" 1000) "i-001" 1001)
        [SweepStep.iterate, SweepStep.iterate, SweepStep.deref 0, SweepStep.deref 1]).handled
      = [(0, "i-001", true), (1, "i-002", true)] ∧
    (startupSweep (updateInstanceTime (updateInstanceTime Db.empty "i-002" 1000) "i-001" 1001)
        [SweepStep.iterate, SweepStep.deref 0, SweepStep.iterate, SweepStep.deref 1]).handled
      = [(0, "i-001", true), (1, "i-002", true)] := by
  decide

/-- While no result is available within `HEARTBEAT_SEC` of entering the
`select`, the timer case runs. -/
theorem selectLoop_tick_first (fuel : Nat) (enter arrival : Int) (err : Bool)
    (rest : List (Int × Bool)) (h : enter + HEARTBEAT_SEC < arrival) :
    selectLoop (fuel + 1) enter ((arrival, err) :: rest)
      = WaitEvent.tick (enter + HEARTBEAT_SEC)
          :: selectLoop fuel (enter + HEARTBEAT_SEC) ((arrival, err) :: rest) := by
  have h2 : ¬ arrival ≤ enter + HEARTBEAT_SEC := not_le.mpr h
  simp [selectLoop, h2]

/-- Long-poll results that keep arriving within `HEARTBEAT_SEC` of the previous
pass never let the timer case run, however long the wait is in total. -/
theorem selectLoop_starved (polls : List (Int × Bool)) :
    ∀ (fuel : Nat) (enter : Int), fuel ≤ polls.length → closelySpaced enter polls = true →
      ∀ now : Int, WaitEvent.tick now ∉ selectLoop fuel enter polls := by
  induction polls with
  | nil =>
    intro fuel enter hfuel _ now
    have : fuel = 0 := by simpa using hfuel
    subst this
    simp [selectLoop]
  | cons p rest ih =>
    intro fuel enter hfuel hclose now
    obtain ⟨arrival, err⟩ := p
    cases fuel with
    | zero => simp [selectLoop]
    | succ fuel =>
      simp only [closelySpaced, Bool.and_eq_true, decide_eq_true_eq] at hclose
      have hfuel2 : fuel ≤ rest.length := by simpa using hfuel
      have hrec := ih fuel (max enter arrival) hfuel2 hclose.2 now
      cases err with
      | false => simp [selectLoop, hclose.1]
      | true => simp [selectLoop, hclose.1, hrec]

/-- C7 (code bug). The claim: a wait longer than one heartbeat interval, with
any number of long-poll errors in between, refreshes the ledger at least once.
With the claim at 1000, the loop entered at 1000, long-poll errors at 1100 and
1200 and the clean stop at 1250, the wait lasts 250 s > 120 s, but each pass
through the `select` arms a new 2-minute timer, no timer ever fires, no
`updateInstanceTime` is called and the entry still carries time 1000. -/
theorem waitForInstanceStop_heartbeat_starved :
    (1250 : Int) - 1000 > HEARTBEAT_SEC ∧
    selectLoop 10 1000 [(1100, true), (1200, true), (1250, false)]
      = [WaitEvent.pollResult true, WaitEvent.pollResult true, WaitEvent.pollResult false] ∧
    waitForInstanceStop (updateInstanceTime Db.empty "i-001" 1000) "i-001"
        (selectLoop 10 1000 [(1100, true), (1200, true), (1250, false)])
      = ⟨updateInstanceTime Db.empty "i-001" 1000, 0,
          [Call.waitUntilInstanceStopped "i-001", Call.waitUntilInstanceStopped "i-001",
            Call.waitUntilInstanceStopped "i-001"], true⟩ ∧
    (updateInstanceTime Db.empty "i-001" 1000).entriesFor "i-001"
      = [⟨1, 1000, "i-001", 1000⟩] := by
  decide

/-- C8 (code bug). The claim: the heartbeat interval is strictly smaller than
`INSTANCE_NOT_UPDATE_SEC`, so a heartbeaten entry never ages beyond it. In the
code the interval is 120 s and the threshold 30 s: with a claim at 1000 and a
long-poll that returns at 2000 the first heartbeats are written at 1120, 1240
and 1360, and at 1100 the entry, not yet refreshed, has age 100 > 30. -/
theorem heartbeat_interval_exceeds_threshold :
    ¬ (HEARTBEAT_SEC < INSTANCE_NOT_UPDATE_SEC) ∧
    selectLoop 3 1000 [(2000, false)]
      = [WaitEvent.tick 1120, WaitEvent.tick 1240, WaitEvent.tick 1360] ∧
    (updateInstanceTime Db.empty "i-001" 1000).entriesFor "i-001"
      = [⟨1, 1000, "i-001", 1000⟩] ∧
    (1100 : Int) - 1000 > INSTANCE_NOT_UPDATE_SEC ∧
    isFreshlyClaimed (updateInstanceTime Db.empty "i-001" 1000) "i-001"
      INSTANCE_NOT_UPDATE_SEC 1100 = false := by
  decide

/-- In the loop of `checkDegradedResult`, while the wait of one instance has
not completed nothing is done for the instances after it. -/
theorem handleScanResult_blocked (db : Db) (instanceId : String) (env : ProviderEnv)
    (rest : List (String × ProviderEnv))
    (h : (handleDegradedInstance db instanceId false env).outcome = Outcome.waiting) :
    handleScanResult db ((instanceId, env) :: rest)
      = handleDegradedInstance db instanceId false env := by
  simp [handleScanResult, h]

/-- C9 (code bug). The claim: the resources of one scan result are remediated
by independent, non-blocking tasks, the later one being claimed and stopped
without waiting for the earlier one. In the code the loop calls
`handleDegradedInstance` synchronously: for the result `i-001`, `i-002` the
claim of `i-002` comes after the remove of `i-001`, and while the wait of
`i-001` has only seen ticks nothing at all is issued for `i-002`. -/
theorem checkDegradedResult_sequential :
    (checkDegradedResult Db.empty (some
        [("i-001", ⟨1000, 1000, false, [WaitEvent.tick 1120, WaitEvent.pollResult false], false⟩),
         ("i-002", ⟨1130, 1130, false, [WaitEvent.pollResult false], false⟩)])).map Run.calls
      = some [Call.dbQueryHandling "i-001", Call.dbUpdate "i-001" 1000,
          Call.stopInstances "i-001", Call.waitUntilInstanceStopped "i-001",
          Call.dbUpdate "i-001" 1120, Call.startInstances "i-001", Call.dbDelete "i-001",
          Call.dbQueryHandling "i-002", Call.dbUpdate "i-002" 1130,
          Call.stopInstances "i-002", Call.waitUntilInstanceStopped "i-002",
          Call.startInstances "i-002", Call.dbDelete "i-002"] ∧
    (checkDegradedResult Db.empty (some
        [("i-001", ⟨1000, 1000, false, [WaitEvent.tick 1120, WaitEvent.tick 1240], false⟩),
         ("i-002", ⟨1130, 1130, false, [WaitEvent.pollResult false], false⟩)])).map Run.calls
      = some [Call.dbQueryHandling "i-001", Call.dbUpdate "i-001" 1000,
          Call.stopInstances "i-001", Call.waitUntilInstanceStopped "i-001",
          Call.dbUpdate "i-001" 1120, Call.dbUpdate "i-001" 1240] := by
  decide

end Restarter
